import Mathlib

/-!
Verification of the test-evidence correlation pipeline of
`playwright-test-actorz`.

The orchestrator (`src/main.ts`) is embedded directly.  The `./transform`
module (`collectAttachmentPaths`, `transformToTabular`, the `Attachment`
type) is imported by `src/main.ts` but its source file is not part of the
repository snapshot; those definitions are modelled from the spec, and each
such definition carries a doc comment starting with `Modelled from the
spec:`.  Everything else is translated from `src/main.ts`.
-/

namespace PlaywrightActorz

/-- Bytes of a file or blob, as read by `fs.readFileSync`. -/
abbrev Bytes := List Nat

/-- Little-endian decimal digits of `n`, with an explicit structural fuel
so that the definition reduces inside the kernel. -/
def digitsFuel : Nat → Nat → List Nat
  | 0, _ => []
  | _ + 1, 0 => []
  | fuel + 1, n + 1 => (n + 1) % 10 :: digitsFuel fuel ((n + 1) / 10)

/-- Decimal rendering of a natural number (digit characters, most
significant first); used for key disambiguation suffixes and attempt
indexes. -/
def natStr (n : Nat) : String :=
  if n = 0 then "0" else ⟨(digitsFuel n n).reverse.map Nat.digitChar⟩

/-- Digit list underlying `natStr`. -/
def digitsOf (n : Nat) : List Nat :=
  if n = 0 then [0] else (Nat.digits 10 n).reverse

/-- Suffix test on strings, by their character lists. -/
def strEndsWith (s pat : String) : Bool :=
  decide (pat.data <:+ s.data)

/-- Modelled from the spec: the fixed extension to MIME table of §4.2 of the
missing `transform` module. -/
def mimeTable : List (String × String) :=
  [(".png", "image/png"), (".webm", "video/webm"),
   (".zip", "application/zip"), (".json", "application/json")]

/-- Modelled from the spec: content-type policy of the missing `transform`
module (§4.2): use the raw attachment's own content type when present,
otherwise infer from the file extension of the name via `mimeTable`,
defaulting to `application/octet-stream`. -/
def inferContentType (contentType : Option String) (name : String) : String :=
  match contentType with
  | some c => c
  | none =>
      ((mimeTable.find? (fun p => strEndsWith name p.1)).map Prod.snd).getD
        "application/octet-stream"

/-- A raw attachment descriptor as found in the JSON report tree: a display
name (required, validated by the walker), an optional content type, and a
file path into the run's working directory. -/
structure RawAttachment where
  name : Option String
  contentType : Option String
  path : String
deriving DecidableEq, Repr

/-- One attempt result of a test case in the raw report. -/
structure RawResult where
  status : String
  durationMs : Nat
  errorMessage : Option String
  attachments : List RawAttachment
deriving DecidableEq, Repr

/-- One test case (a spec times a project) with one result per attempt. -/
structure RawTest where
  projectName : Option String
  results : List RawResult
deriving DecidableEq, Repr

/-- A spec node of the raw report. -/
structure RawSpec where
  title : Option String
  tests : List RawTest
deriving DecidableEq, Repr

/-- A suite node: suites nest suites and contain specs. -/
inductive RawSuite where
  | mk (title : Option String) (specs : List RawSpec) (suites : List RawSuite)

def RawSuite.title : RawSuite → Option String
  | .mk t _ _ => t

def RawSuite.specs : RawSuite → List RawSpec
  | .mk _ sp _ => sp

def RawSuite.suites : RawSuite → List RawSuite
  | .mk _ _ su => su

/-- The parsed `test-results.json` document. -/
structure RawReport where
  suites : List RawSuite

/-- A validated attachment carried by a `TestOutcome`. -/
structure OutcomeAttachment where
  name : String
  contentType : Option String
  path : String
deriving DecidableEq, Repr

/-- A flattened per-attempt outcome produced by the walker (spec §3). -/
structure TestOutcome where
  suitePath : List String
  specTitle : String
  projectName : String
  attemptIndex : Nat
  status : String
  durationMs : Nat
  errorMessage : Option String
  rawAttachments : List OutcomeAttachment
deriving DecidableEq, Repr

/-- The `Attachment` type exported by the missing `transform` module, as
used by `src/main.ts`: a storage key, the file path read at upload time,
and the resolved content type. -/
structure Attachment where
  key : String
  name : String
  path : String
  type : String
deriving DecidableEq, Repr

/-- Modelled from the spec: the deterministic part of `ArtifactKey`
derivation (§3), a pure function of
`(suitePath, specTitle, projectName, attemptIndex, name)`. -/
def baseKey (suitePath : List String) (specTitle projectName : String)
    (attemptIndex : Nat) (name : String) : String :=
  String.intercalate "-" suitePath ++ "-" ++ specTitle ++ "-" ++ projectName
    ++ "-" ++ natStr attemptIndex ++ "-" ++ name

/-- Modelled from the spec: the disambiguated key for the occurrence with
`c` earlier attachments of the same name in the same outcome; the first
occurrence keeps the bare key, later ones append an increasing `#k`
suffix (§3). -/
def keyWithOcc (suitePath : List String) (specTitle projectName : String)
    (attemptIndex : Nat) (name : String) (c : Nat) : String :=
  baseKey suitePath specTitle projectName attemptIndex name ++
    (if c = 0 then "" else "#" ++ natStr (c + 1))

/-- Modelled from the spec: extraction worker; `prior` holds the names of
the attachments already traversed in this outcome, so that duplicate names
get increasing suffixes in the order encountered (§4.2). -/
def extractGo (o : TestOutcome) (prior : List String) :
    List OutcomeAttachment → List Attachment
  | [] => []
  | a :: as =>
      { key := keyWithOcc o.suitePath o.specTitle o.projectName o.attemptIndex
          a.name (prior.count a.name),
        name := a.name, path := a.path,
        type := inferContentType a.contentType a.name } ::
        extractGo o (a.name :: prior) as

/-- Modelled from the spec: `extract` of §4.2 — assign each raw attachment
of an outcome its `ArtifactKey` and its inferred content type. -/
def extract (o : TestOutcome) : List Attachment :=
  extractGo o [] o.rawAttachments

/-- Modelled from the spec: the fatal error class of §7 signalled by the
walker of the missing `transform` module on structurally malformed input. -/
inductive MalformedReportError where
  | missingField (field : String)
deriving DecidableEq, Repr

/-- Modelled from the spec: validate the raw attachments of one result. -/
def walkAttachments : List RawAttachment →
    Except MalformedReportError (List OutcomeAttachment)
  | [] => .ok []
  | a :: as =>
      match a.name with
      | none => .error (.missingField "attachment.name")
      | some n =>
          match walkAttachments as with
          | .error e => .error e
          | .ok rest =>
              .ok ({ name := n, contentType := a.contentType, path := a.path }
                :: rest)

/-- Modelled from the spec: emit one `TestOutcome` per attempt result of a
test case; `idx` is the 0-based attempt index, incremented per retry
(§4.1). -/
def walkResults (suitePath : List String) (specTitle projectName : String)
    (idx : Nat) : List RawResult → Except MalformedReportError (List TestOutcome)
  | [] => .ok []
  | r :: rs =>
      match walkAttachments r.attachments with
      | .error e => .error e
      | .ok atts =>
          match walkResults suitePath specTitle projectName (idx + 1) rs with
          | .error e => .error e
          | .ok rest =>
              .ok ({ suitePath := suitePath, specTitle := specTitle,
                     projectName := projectName, attemptIndex := idx,
                     status := r.status, durationMs := r.durationMs,
                     errorMessage := r.errorMessage, rawAttachments := atts }
                :: rest)

/-- Modelled from the spec: flatten the test cases of a spec node. -/
def walkTests (suitePath : List String) (specTitle : String) :
    List RawTest → Except MalformedReportError (List TestOutcome)
  | [] => .ok []
  | t :: ts =>
      match t.projectName with
      | none => .error (.missingField "test.projectName")
      | some pn =>
          match walkResults suitePath specTitle pn 0 t.results with
          | .error e => .error e
          | .ok os =>
              match walkTests suitePath specTitle ts with
              | .error e => .error e
              | .ok rest => .ok (os ++ rest)

/-- Modelled from the spec: flatten the spec nodes of a suite. -/
def walkSpecs (suitePath : List String) :
    List RawSpec → Except MalformedReportError (List TestOutcome)
  | [] => .ok []
  | sp :: sps =>
      match sp.title with
      | none => .error (.missingField "spec.title")
      | some t =>
          match walkTests suitePath t sp.tests with
          | .error e => .error e
          | .ok os =>
              match walkSpecs suitePath sps with
              | .error e => .error e
              | .ok rest => .ok (os ++ rest)

mutual

/-- Modelled from the spec: depth-first traversal of one suite node; the
suite path breadcrumb collects ancestor titles root-first (§4.1). -/
def walkSuite (ancestors : List String) : RawSuite →
    Except MalformedReportError (List TestOutcome)
  | .mk title specs suites =>
      match title with
      | none => .error (.missingField "suite.title")
      | some t =>
          match walkSpecs (ancestors ++ [t]) specs with
          | .error e => .error e
          | .ok os =>
              match walkSuites (ancestors ++ [t]) suites with
              | .error e => .error e
              | .ok rest => .ok (os ++ rest)

/-- Modelled from the spec: depth-first traversal of sibling suites in
declaration order. -/
def walkSuites (ancestors : List String) : List RawSuite →
    Except MalformedReportError (List TestOutcome)
  | [] => .ok []
  | s :: ss =>
      match walkSuite ancestors s with
      | .error e => .error e
      | .ok os =>
          match walkSuites ancestors ss with
          | .error e => .error e
          | .ok rest => .ok (os ++ rest)

end

/-- Modelled from the spec: `walk` of §4.1 — lazy flattening of the parsed
report into `TestOutcome`s, failing fast on malformed input. -/
def walk (r : RawReport) : Except MalformedReportError (List TestOutcome) :=
  walkSuites [] r.suites

/-- Number of leaf (test, attempt) pairs below a list of test cases. -/
def testsLeafCount : List RawTest → Nat
  | [] => 0
  | t :: ts => t.results.length + testsLeafCount ts

/-- Number of leaf (test, attempt) pairs below a list of spec nodes. -/
def specsLeafCount : List RawSpec → Nat
  | [] => 0
  | sp :: sps => testsLeafCount sp.tests + specsLeafCount sps

mutual

/-- Number of leaf (test, attempt) pairs below one suite node. -/
def suiteLeafCount : RawSuite → Nat
  | .mk _ specs suites => specsLeafCount specs + suitesLeafCount suites

/-- Number of leaf (test, attempt) pairs below a list of suite nodes. -/
def suitesLeafCount : List RawSuite → Nat
  | [] => 0
  | s :: ss => suiteLeafCount s + suitesLeafCount ss

end

/-- Total number of leaf (test, attempt) pairs in the report tree. -/
def leafCount (r : RawReport) : Nat :=
  suitesLeafCount r.suites

def attachmentsWF : List RawAttachment → Bool
  | [] => true
  | a :: as => a.name.isSome && attachmentsWF as

def resultsWF : List RawResult → Bool
  | [] => true
  | r :: rs => attachmentsWF r.attachments && resultsWF rs

def testsWF : List RawTest → Bool
  | [] => true
  | t :: ts => t.projectName.isSome && resultsWF t.results && testsWF ts

def specsWF : List RawSpec → Bool
  | [] => true
  | sp :: sps => sp.title.isSome && testsWF sp.tests && specsWF sps

mutual

/-- Structural well-formedness of a suite node: all required fields are
present throughout. -/
def suiteWF : RawSuite → Bool
  | .mk title specs suites => title.isSome && specsWF specs && suitesWF suites

def suitesWF : List RawSuite → Bool
  | [] => true
  | s :: ss => suiteWF s && suitesWF ss

end

/-- Structural well-formedness of a whole report. -/
def reportWF (r : RawReport) : Bool :=
  suitesWF r.suites

/-- Collect the extracted attachments of a list of outcomes, in walker
order. -/
def collectFromOutcomes : List TestOutcome → List Attachment
  | [] => []
  | o :: os => extract o ++ collectFromOutcomes os

/-- Modelled from the spec: `collectAttachmentPaths` exported by the
missing `transform` module — walk the raw report and return every
attachment with its derived key and inferred content type; raises
`MalformedReportError` on malformed input. -/
def collectAttachmentPaths (r : RawReport) :
    Except MalformedReportError (List Attachment) :=
  match walk r with
  | .error e => .error e
  | .ok os => .ok (collectFromOutcomes os)

/-- An `Attachment` extended with the resolved storage URL, as built by the
upload loop of `src/main.ts` by object spread. -/
structure AttachmentLink extends Attachment where
  url : String
deriving DecidableEq, Repr

/-- One `{name, url, contentType}` evidence entry of a tabular record. -/
structure ArtifactEntry where
  name : String
  url : String
  contentType : String
deriving DecidableEq, Repr

/-- One sink-facing flattened row (spec §3 `TabularRecord`). -/
structure TabularRecord where
  suitePath : String
  specTitle : String
  projectName : String
  attemptIndex : Nat
  status : String
  durationMs : Nat
  errorMessage : Option String
  artifacts : List ArtifactEntry
deriving DecidableEq, Repr

/-- A pipeline-level warning naming an attachment key whose upload result
was missing at join time (spec §4.4). -/
structure MissingArtifactWarning where
  key : String
deriving DecidableEq, Repr

/-- Key lookup in the uploaded-links list. -/
def lookupLink (links : List AttachmentLink) (k : String) :
    Option AttachmentLink :=
  links.find? (fun l => l.key == k)

/-- Modelled from the spec: project one outcome (§4.4) — recompute each
attachment's key, join by key equality against the uploaded links, omit
missing keys from the artifact list and record each omission as a
warning. -/
def project1 (links : List AttachmentLink) (o : TestOutcome) :
    TabularRecord × List MissingArtifactWarning :=
  let staged := extract o
  ({ suitePath := String.intercalate " > " o.suitePath,
     specTitle := o.specTitle, projectName := o.projectName,
     attemptIndex := o.attemptIndex, status := o.status,
     durationMs := o.durationMs, errorMessage := o.errorMessage,
     artifacts := staged.filterMap (fun a =>
       (lookupLink links a.key).map (fun l =>
         { name := a.name, url := l.url, contentType := a.type })) },
   staged.filterMap (fun a =>
     if (lookupLink links a.key).isSome then none
     else some { key := a.key }))

/-- Modelled from the spec: project every outcome in walker order,
concatenating the warnings. -/
def project (links : List AttachmentLink) :
    List TestOutcome → List TabularRecord × List MissingArtifactWarning
  | [] => ([], [])
  | o :: os =>
      let rw := project1 links o
      let rest := project links os
      (rw.1 :: rest.1, rw.2 ++ rest.2)

/-- Modelled from the spec: `transformToTabular` exported by the missing
`transform` module — re-walk the report and join the outcomes with the
uploaded links, returning the records together with the warning list. -/
def transformToTabular (r : RawReport) (links : List AttachmentLink) :
    List TabularRecord × List MissingArtifactWarning :=
  match walk r with
  | .error _ => ([], [])
  | .ok os => project links os

/-- The run's key-value store contents: `(key, bytes, contentType)`
triples in write order. -/
abbrev KVS := List (String × Bytes × String)

/-- URL of one stored record, as interpolated in `src/main.ts`. -/
def mkRecordUrl (storeId key : String) : String :=
  "https://api.apify.com/v2/key-value-stores/" ++ storeId ++ "/records/" ++ key

/-- One iteration of the upload loop of `src/main.ts` (lines 479-487):
read the attachment's file, store the bytes under the attachment's key via
`kvs.setValue`, and return the spread link with the interpolated URL.  A
missing file makes `fs.readFileSync` throw before `setValue` runs, which
rejects this attachment's promise only. -/
def uploadOne (storeId : String) (fileSys : String → Option Bytes)
    (store : KVS) (a : Attachment) : KVS × Except String AttachmentLink :=
  match fileSys a.path with
  | none => (store, .error ("ENOENT: no such file or directory " ++ a.path))
  | some content =>
      (store ++ [(a.key, content, a.type)],
       .ok { toAttachment := a, url := mkRecordUrl storeId a.key })

/-- All upload tasks of the batch: each task runs regardless of its
siblings' outcomes (the `Promise.all` argument list is fully mapped before
the fan-in await). -/
def uploadAll (storeId : String) (fileSys : String → Option Bytes)
    (store : KVS) : List Attachment → KVS × List (Except String AttachmentLink)
  | [] => (store, [])
  | a :: as =>
      let first := uploadOne storeId fileSys store a
      let rest := uploadAll storeId fileSys first.1 as
      (rest.1, first.2 :: rest.2)

/-- `Promise.all` fan-in: fulfils with every link when every task fulfils,
rejects with the first rejection otherwise. -/
def promiseAll {α : Type} : List (Except String α) → Except String (List α)
  | [] => .ok []
  | .error e :: _ => .error e
  | .ok x :: rest =>
      match promiseAll rest with
      | .error e => .error e
      | .ok xs => .ok (x :: xs)

/-- Caller-visible outcome of the test-results processing block of
`src/main.ts` (lines 472-498). -/
structure PipelineResult where
  store : KVS
  pushed : Option (List TabularRecord)
  warnings : Option (List MissingArtifactWarning)
  loggedError : Option String
deriving Repr

/-- Render a malformed-report error the way the catch block logs it. -/
def mErrMsg : MalformedReportError → String
  | .missingField f => "MalformedReportError: missing required field " ++ f

/-- The test-results processing block of `src/main.ts` (lines 472-498):
collect attachment paths, upload them all, await the `Promise.all` fan-in,
then transform and push the tabular records; any error escaping the block
is caught by `catch (testError)` and logged, pushing nothing. -/
def processTestResults (storeId : String) (fileSys : String → Option Bytes)
    (r : RawReport) : PipelineResult :=
  match collectAttachmentPaths r with
  | .error e =>
      { store := [], pushed := none, warnings := none,
        loggedError := some (mErrMsg e) }
  | .ok atts =>
      let uploads := uploadAll storeId fileSys [] atts
      match promiseAll uploads.2 with
      | .error msg =>
          { store := uploads.1, pushed := none, warnings := none,
            loggedError := some msg }
      | .ok links =>
          let out := transformToTabular r links
          { store := uploads.1, pushed := some out.1,
            warnings := some out.2, loggedError := none }

/-- The link built for a successful upload of attachment `a`. -/
def mkLink (storeId : String) (a : Attachment) : AttachmentLink :=
  { toAttachment := a, url := mkRecordUrl storeId a.key }

/-- Result of one upload task, independent of the store state. -/
def uploadRes (storeId : String) (fileSys : String → Option Bytes)
    (a : Attachment) : Except String AttachmentLink :=
  match fileSys a.path with
  | none => .error ("ENOENT: no such file or directory " ++ a.path)
  | some _ => .ok (mkLink storeId a)

/-- Sample data: the spec §8 scenario report — suites
Login and Patient Search, one spec, one attempt, two attachments sharing
the name screenshot.png. -/
def sampleResult : RawResult :=
  { status := "passed", durationMs := 4200, errorMessage := none,
    attachments :=
      [{ name := some "screenshot.png", contentType := none,
         path := "test-results/s1.png" },
       { name := some "screenshot.png", contentType := none,
         path := "test-results/s2.png" }] }

def sampleTest : RawTest :=
  { projectName := some "chromium", results := [sampleResult] }

def sampleSpec : RawSpec :=
  { title := some "finds patient", tests := [sampleTest] }

def sampleReport : RawReport :=
  { suites := [.mk (some "Login") []
      [.mk (some "Patient Search") [sampleSpec] []]] }

/-- The outcome the walker derives from `sampleReport`. -/
def sampleOutcome : TestOutcome :=
  { suitePath := ["Login", "Patient Search"], specTitle := "finds patient",
    projectName := "chromium", attemptIndex := 0, status := "passed",
    durationMs := 4200, errorMessage := none,
    rawAttachments :=
      [{ name := "screenshot.png", contentType := none,
         path := "test-results/s1.png" },
       { name := "screenshot.png", contentType := none,
         path := "test-results/s2.png" }] }

/-- File system with both attachment files present. -/
def fsBoth : String → Option Bytes := fun p =>
  if p = "test-results/s1.png" then some [1, 1]
  else if p = "test-results/s2.png" then some [2, 2] else none

/-- File system where the first attachment file is missing. -/
def fsMiss : String → Option Bytes := fun p =>
  if p = "test-results/s2.png" then some [2, 2] else none

/-- A report whose only suite node lacks a title (spec §8 malformed
scenario). -/
def badReport : RawReport :=
  { suites := [.mk none [] []] }

/-- Attempt results of a test case retried once. -/
def retryResults : List RawResult :=
  [{ status := "failed", durationMs := 100,
     errorMessage := some "boom", attachments := [] },
   { status := "passed", durationMs := 90,
     errorMessage := none, attachments := [] }]

/-- A report with one test case retried once (two attempt results). -/
def retryReport : RawReport :=
  { suites := [.mk (some "Login")
      [{ title := some "finds patient",
         tests := [{ projectName := some "chromium",
                     results := retryResults }] }]
      []] }

/-- The two outcomes the walker derives from `retryReport`. -/
def retryOutcomes : List TestOutcome :=
  [{ suitePath := ["Login"], specTitle := "finds patient",
     projectName := "chromium", attemptIndex := 0, status := "failed",
     durationMs := 100, errorMessage := some "boom", rawAttachments := [] },
   { suitePath := ["Login"], specTitle := "finds patient",
     projectName := "chromium", attemptIndex := 1, status := "passed",
     durationMs := 90, errorMessage := none, rawAttachments := [] }]

/-- The first staged attachment of `sampleOutcome` (bare key). -/
def stagedA : Attachment :=
  { key := "Login-Patient Search-finds patient-chromium-0-screenshot.png",
    name := "screenshot.png", path := "test-results/s1.png",
    type := "image/png" }

/-- The second staged attachment of `sampleOutcome` (suffixed key). -/
def stagedB : Attachment :=
  { key := "Login-Patient Search-finds patient-chromium-0-screenshot.png#2",
    name := "screenshot.png", path := "test-results/s2.png",
    type := "image/png" }

/-- The record projected from `sampleReport` after both uploads succeed
against store id store1. -/
def sampleRecord : TabularRecord :=
  { suitePath := "Login > Patient Search", specTitle := "finds patient",
    projectName := "chromium", attemptIndex := 0, status := "passed",
    durationMs := 4200, errorMessage := none,
    artifacts :=
      [{ name := "screenshot.png",
         url := "https://api.apify.com/v2/key-value-stores/store1/records/Login-Patient Search-finds patient-chromium-0-screenshot.png",
         contentType := "image/png" },
       { name := "screenshot.png",
         url := "https://api.apify.com/v2/key-value-stores/store1/records/Login-Patient Search-finds patient-chromium-0-screenshot.png#2",
         contentType := "image/png" }] }

/-- Like `sampleOutcome` with different attachment paths and explicit
content types: same identifying tuple, same name sequence. -/
def sampleOutcomeAlt : TestOutcome :=
  { suitePath := ["Login", "Patient Search"], specTitle := "finds patient",
    projectName := "chromium", attemptIndex := 0, status := "failed",
    durationMs := 99, errorMessage := some "late",
    rawAttachments :=
      [{ name := "screenshot.png", contentType := some "image/png",
         path := "alt/a1.png" },
       { name := "screenshot.png", contentType := some "image/png",
         path := "alt/a2.png" }] }

/-- Observation helper: did an `Except` computation succeed. -/
def exceptIsOk {ε α : Type} : Except ε α → Bool
  | .ok _ => true
  | .error _ => false


/-- The `global.__TEST_RESULTS__` payload type declared in `src/main.ts`. -/
structure TestResultsGlobal where
  patientName : String
  medications : String
  nextAppointment : Option String
  requestId : String
  calculatedAt : String
  message : String
deriving DecidableEq, Repr

/-- One item pushed to the default dataset by `src/main.ts`: either the
patient payload guarded by `global.__TEST_RESULTS__`, or the tabular
records of the evidence pipeline. -/
inductive DatasetItem where
  | patient (res : TestResultsGlobal)
  | tabular (recs : List TabularRecord)
deriving DecidableEq, Repr

/-- The `ActorInput` interface of `src/main.ts`. -/
structure ActorInput where
  patientName : Option String
  medications : Option (List String)
  email : Option String
  password : Option String
  apiEndpoint : Option String
  memory : Option Nat
  screenWidth : Option Nat
  screenHeight : Option Nat
  headful : Option Bool
  timeout : Option Nat
  darkMode : Option Bool
  locale : Option String
  video : Option String

/-- External collaborators of the orchestrating process: the child test
run's exit status, the working-directory file system, the parsed
`test-results.json` (when the file exists), the video files found in the
video directory, the HTML report bytes (when present), and the run's
key-value store id and run id. -/
structure WorldOracle where
  childRunOk : Bool
  fileBytes : String → Option Bytes
  reportJson : Option RawReport
  videoFiles : List (String × Bytes)
  reportHtml : Option Bytes
  storeId : String
  runId : String

/-- The JavaScript heap state of the orchestrating Node process, plus its
externally visible effects. -/
structure OrchestratorState where
  testResultsGlobal : Option TestResultsGlobal
  writtenFiles : List (String × String)
  datasetItems : List DatasetItem
  store : KVS
  crashed : Bool

def initialState : OrchestratorState :=
  { testResultsGlobal := none, writtenFiles := [], datasetItems := [],
    store := [], crashed := false }

/-- `generateTestCode` of `src/main.ts`: returns the Playwright test
script as a string (the 170-line template is abbreviated here to its
data-flow-relevant line: the script text contains the assignment
`global.__TEST_RESULTS__ = testResults`, which only ever executes inside
the child process that runs the script). -/
def generateTestCode (input : ActorInput) : String :=
  "import test from playwright-test; test Patient appointment verification: "
    ++ "login, search for " ++ input.patientName.getD "Default Patient"
    ++ ", collect results; global.__TEST_RESULTS__ = testResults; screenshot"

/-- `storeTestCode` of `src/main.ts`: `fs.writeFileSync` of the script. -/
def storeTestCode (s : OrchestratorState) (contents path : String) :
    OrchestratorState :=
  { s with writtenFiles := s.writtenFiles ++ [(path, contents)] }

/-- `getConfig` of `src/main.ts`: the interpolated Playwright config. -/
def getConfigStr (screenW screenH : Nat) (headful : Bool) (timeoutMs : Nat)
    (locale : String) (darkMode : Bool) (video : String) : String :=
  "defineConfig: timeout " ++ natStr timeoutMs
    ++ ", headless " ++ (if headful then "false" else "true")
    ++ ", viewport " ++ natStr screenW ++ "x" ++ natStr screenH
    ++ ", colorScheme " ++ (if darkMode then "dark" else "light")
    ++ ", locale " ++ locale ++ ", video mode " ++ video
    ++ ", reporter html and json test-results.json"

/-- `updateConfig` of `src/main.ts` with its default parameters. -/
def updateConfigStep (input : ActorInput) (s : OrchestratorState) :
    OrchestratorState :=
  { s with writtenFiles := s.writtenFiles ++
      [("playwright.config.ts",
        getConfigStr (input.screenWidth.getD 1280) (input.screenHeight.getD 720)
          (input.headful.getD false) ((input.timeout.getD 60) * 1000)
          (input.locale.getD "en-US") (input.darkMode.getD false)
          (input.video.getD "on"))] }

/-- `runTests` of `src/main.ts`: `execSync` spawns a separate child
process for `npx playwright test`; the generated script's assignment to
`global.__TEST_RESULTS__` happens in the child's own JavaScript heap and
cannot reach the parent's globals, so the parent state is returned
unchanged, together with the child's exit status. -/
def runTests (w : WorldOracle) (s : OrchestratorState) :
    OrchestratorState × Bool :=
  (s, w.childRunOk)

def screenshotFileNames (runId : String) : List String :=
  ["patient-details-" ++ runId ++ ".png", "error-state-" ++ runId ++ ".png"]

/-- The screenshot upload loop of `src/main.ts` (lines 415-423). -/
def uploadScreenshots (w : WorldOracle) (s : OrchestratorState) :
    OrchestratorState :=
  { s with store := s.store ++
      (screenshotFileNames w.runId).filterMap (fun file =>
        (w.fileBytes file).map (fun b => (file, b, "image/png"))) }

/-- The HTML report upload of `src/main.ts` (lines 426-430). -/
def uploadReportHtml (w : WorldOracle) (s : OrchestratorState) :
    OrchestratorState :=
  match w.reportHtml with
  | none => s
  | some b => { s with store := s.store ++ [("report.html", b, "text/html")] }

/-- The video upload loop of `src/main.ts` (lines 438-463): each `.webm`
file is stored under the key `video-` followed by the file name. -/
def uploadVideos (w : WorldOracle) (s : OrchestratorState) :
    OrchestratorState :=
  { s with store := s.store ++
      w.videoFiles.filterMap (fun fb =>
        if strEndsWith fb.1 ".webm" then
          some ("video-" ++ fb.1, fb.2, "video/webm")
        else none) }

/-- The storage section of `src/main.ts` (lines 403-506): screenshots,
HTML report, videos, then the test-results processing block. -/
def storageSection (w : WorldOracle) (s : OrchestratorState) :
    OrchestratorState :=
  let s₁ := uploadVideos w (uploadReportHtml w (uploadScreenshots w s))
  match w.reportJson with
  | none => s₁
  | some r =>
      let res := processTestResults w.storeId w.fileBytes r
      let s₂ := { s₁ with store := s₁.store ++ res.store }
      match res.pushed with
      | some recs =>
          { s₂ with datasetItems := s₂.datasetItems ++ [.tabular recs] }
      | none => s₂

/-- The `async` main body of `src/main.ts` (lines 325-509): generate and
store the test code, update the config, run the child test process, then
the `global.__TEST_RESULTS__` guard, then the storage section.  A child
run failure rethrows out of `runTests` and aborts the remainder. -/
def mainFlow (input : ActorInput) (w : WorldOracle) : OrchestratorState :=
  let s₁ := storeTestCode initialState (generateTestCode input)
    "tests/test.spec.ts"
  let s₂ := updateConfigStep input s₁
  let run := runTests w s₂
  if run.2 = false then { run.1 with crashed := true }
  else
    let s₃ := run.1
    let s₄ :=
      match s₃.testResultsGlobal with
      | some tr => { s₃ with datasetItems := s₃.datasetItems ++ [.patient tr] }
      | none => s₃
    storageSection w s₄

/-- A concrete actor input with every field left to its default. -/
def sampleInput : ActorInput :=
  { patientName := none, medications := none, email := none, password := none,
    apiEndpoint := none, memory := none, screenWidth := none,
    screenHeight := none, headful := none, timeout := none, darkMode := none,
    locale := none, video := none }

/-- A concrete world: the child run succeeds, the report parses to
`sampleReport`, both attachment files are readable. -/
def sampleWorld : WorldOracle :=
  { childRunOk := true, fileBytes := fsBoth, reportJson := some sampleReport,
    videoFiles := [], reportHtml := none, storeId := "store1",
    runId := "run1" }

theorem digitsFuel_eq : ∀ (fuel n : Nat), n ≤ fuel →
    digitsFuel fuel n = Nat.digits 10 n := by
  intro fuel
  induction fuel with
  | zero =>
    intro n hn
    have : n = 0 := Nat.le_zero.mp hn
    subst this
    simp [digitsFuel]
  | succ fuel ih =>
    intro n hn
    cases n with
    | zero => simp [digitsFuel]
    | succ m =>
      rw [digitsFuel]
      have hdiv : (m + 1) / 10 ≤ fuel := by
        have := Nat.div_lt_self (Nat.succ_pos m) (by omega : 1 < 10)
        omega
      rw [ih ((m + 1) / 10) hdiv]
      exact (Nat.digits_def' (by omega : 1 < 10) (Nat.succ_pos m)).symm

theorem natStr_eq (n : Nat) : natStr n = ⟨(digitsOf n).map Nat.digitChar⟩ := by
  by_cases h : n = 0
  · subst h; rfl
  · simp [natStr, digitsOf, h, digitsFuel_eq n n (Nat.le_refl n)]

theorem digitsOf_lt (n : Nat) : ∀ x ∈ digitsOf n, x < 10 := by
  intro x hx
  by_cases h : n = 0
  · subst h; simp [digitsOf] at hx; omega
  · simp only [digitsOf, if_neg h, List.mem_reverse] at hx
    exact Nat.digits_lt_base (by norm_num) hx

theorem digitsOf_inj {m n : Nat} (h : digitsOf m = digitsOf n) : m = n := by
  by_cases hm : m = 0 <;> by_cases hn : n = 0
  · omega
  · exfalso
    simp only [digitsOf, if_pos hm, if_neg hn] at h
    have hd : Nat.digits 10 n = [0] := by
      have := congrArg List.reverse h
      simpa using this.symm
    have := Nat.ofDigits_digits 10 n
    rw [hd] at this
    simp [Nat.ofDigits] at this
    omega
  · exfalso
    simp only [digitsOf, if_neg hm, if_pos hn] at h
    have hd : Nat.digits 10 m = [0] := by
      have := congrArg List.reverse h
      simpa using this
    have := Nat.ofDigits_digits 10 m
    rw [hd] at this
    simp [Nat.ofDigits] at this
    omega
  · simp only [digitsOf, if_neg hm, if_neg hn] at h
    have hd : Nat.digits 10 m = Nat.digits 10 n := by
      have := congrArg List.reverse h
      simpa using this
    have h₁ := Nat.ofDigits_digits 10 m
    rw [hd, Nat.ofDigits_digits] at h₁
    omega

/-- `Nat.digitChar` is injective below the base 10. -/
theorem digitChar_inj_lt_ten :
    ∀ a, a < 10 → ∀ b, b < 10 → Nat.digitChar a = Nat.digitChar b → a = b := by
  decide

/-- Mapping `Nat.digitChar` over lists of decimal digits is injective. -/
theorem map_digitChar_inj : ∀ (l₁ l₂ : List Nat),
    (∀ x ∈ l₁, x < 10) → (∀ x ∈ l₂, x < 10) →
    l₁.map Nat.digitChar = l₂.map Nat.digitChar → l₁ = l₂ := by
  intro l₁
  induction l₁ with
  | nil => intro l₂ _ _ h; cases l₂ <;> simp_all
  | cons a as ih =>
    intro l₂ h₁ h₂ h
    cases l₂ with
    | nil => simp_all
    | cons b bs =>
      simp only [List.map_cons, List.cons.injEq] at h
      have hab : a = b :=
        digitChar_inj_lt_ten a (h₁ a (by simp)) b (h₂ b (by simp)) h.1
      have htl : as = bs :=
        ih bs (fun x hx => h₁ x (by simp [hx])) (fun x hx => h₂ x (by simp [hx])) h.2
      simp [hab, htl]

/-- The decimal rendering is injective. -/
theorem natStr_injective : Function.Injective natStr := by
  intro m n h
  rw [natStr_eq, natStr_eq] at h
  have hl : (digitsOf m).map Nat.digitChar = (digitsOf n).map Nat.digitChar := by
    have := congrArg String.data h
    simpa using this
  exact digitsOf_inj (map_digitChar_inj _ _ (digitsOf_lt m) (digitsOf_lt n) hl)

/-- Data of a concatenation. -/
theorem string_data_append (s t : String) : (s ++ t).data = s.data ++ t.data := by
  cases s; cases t; rfl

/-- Left cancellation for string concatenation. -/
theorem string_append_left_cancel {s t u : String} (h : s ++ t = s ++ u) : t = u := by
  have hd := congrArg String.data h
  rw [string_data_append, string_data_append] at hd
  have hdu := List.append_cancel_left hd
  cases t
  cases u
  exact congrArg String.mk hdu

theorem string_length_append (s t : String) : (s ++ t).length = s.length + t.length := by
  have h := congrArg List.length (string_data_append s t)
  rw [List.length_append] at h
  exact h

theorem strEndsWith_iff {s pat : String} :
    strEndsWith s pat = true ↔ pat.data <:+ s.data := by
  simp [strEndsWith]

/-- A nonempty suffix determines the last character of the string. -/
theorem getLast?_of_suffix {l₁ l₂ : List Char} (h : l₁ <:+ l₂) (hne : l₁ ≠ []) :
    l₂.getLast? = l₁.getLast? := by
  obtain ⟨t, rfl⟩ := h
  exact List.getLast?_append_of_ne_nil t hne

/-- Two candidate extensions with different last characters cannot both be
suffixes of the same name. -/
theorem endsWith_excl {n p q : String} (hp : strEndsWith n p = true)
    (hq : strEndsWith n q = true) (h : p.data.getLast? ≠ q.data.getLast?)
    (hpne : p.data ≠ []) (hqne : q.data ≠ []) : False := by
  have h₁ := getLast?_of_suffix (strEndsWith_iff.mp hp) hpne
  have h₂ := getLast?_of_suffix (strEndsWith_iff.mp hq) hqne
  exact h (h₁ ▸ h₂)

theorem extractGo_length (o : TestOutcome) :
    ∀ (atts : List OutcomeAttachment) (prior : List String),
      (extractGo o prior atts).length = atts.length := by
  intro atts
  induction atts with
  | nil => intro prior; rfl
  | cons a as ih => intro prior; simp [extractGo, ih]

theorem extract_length (o : TestOutcome) :
    (extract o).length = o.rawAttachments.length :=
  extractGo_length o o.rawAttachments []

theorem natStr_length_pos (n : Nat) : 0 < (natStr n).length := by
  by_cases h : n = 0
  · subst h; decide
  · simp only [natStr, if_neg h, String.length]
    simp only [List.length_map, List.length_reverse,
      digitsFuel_eq n n (Nat.le_refl n)]
    have hne : Nat.digits 10 n ≠ [] := Nat.digits_ne_nil_iff_ne_zero.mpr h
    exact List.length_pos.mpr hne

/-- Different occurrence counters give different disambiguated keys. -/
theorem keyWithOcc_ne (suitePath : List String) (specTitle projectName : String)
    (attemptIndex : Nat) (name : String) {c₁ c₂ : Nat} (hne : c₁ ≠ c₂) :
    keyWithOcc suitePath specTitle projectName attemptIndex name c₁ ≠
      keyWithOcc suitePath specTitle projectName attemptIndex name c₂ := by
  intro h
  unfold keyWithOcc at h
  have hsuf := string_append_left_cancel h
  by_cases h₁ : c₁ = 0 <;> by_cases h₂ : c₂ = 0
  · exact hne (h₁.trans h₂.symm)
  · rw [if_pos h₁, if_neg h₂] at hsuf
    have hlen := congrArg String.length hsuf
    rw [string_length_append] at hlen
    have := natStr_length_pos (c₂ + 1)
    have he : ("" : String).length = 0 := rfl
    have hh : ("#" : String).length = 1 := rfl
    omega
  · rw [if_neg h₁, if_pos h₂] at hsuf
    have hlen := congrArg String.length hsuf
    rw [string_length_append] at hlen
    have := natStr_length_pos (c₁ + 1)
    have he : ("" : String).length = 0 := rfl
    have hh : ("#" : String).length = 1 := rfl
    omega
  · rw [if_neg h₁, if_neg h₂] at hsuf
    have := natStr_injective (string_append_left_cancel hsuf)
    omega

/-- Every extracted attachment's key is the disambiguated key of its own
name at an occurrence counter at least the number of earlier occurrences
already recorded in `prior`. -/
theorem extractGo_mem (o : TestOutcome) :
    ∀ (atts : List OutcomeAttachment) (prior : List String)
      (x : Attachment), x ∈ extractGo o prior atts →
      ∃ c, prior.count x.name ≤ c ∧
        x.key = keyWithOcc o.suitePath o.specTitle o.projectName
          o.attemptIndex x.name c := by
  intro atts
  induction atts with
  | nil => intro prior x hx; simp [extractGo] at hx
  | cons a as ih =>
    intro prior x hx
    simp only [extractGo, List.mem_cons] at hx
    rcases hx with hx | hx
    · subst hx
      exact ⟨prior.count a.name, le_refl _, rfl⟩
    · obtain ⟨c, hc, hk⟩ := ih (a.name :: prior) x hx
      refine ⟨c, ?_, hk⟩
      calc prior.count x.name ≤ (a.name :: prior).count x.name := by
            rw [List.count_cons]
            omega
        _ ≤ c := hc

/-- Within one outcome, any two extracted attachments sharing a raw name
have distinct keys. -/
theorem extractGo_pairwise (o : TestOutcome) :
    ∀ (atts : List OutcomeAttachment) (prior : List String),
      List.Pairwise (fun x y : Attachment => x.name = y.name → x.key ≠ y.key)
        (extractGo o prior atts) := by
  intro atts
  induction atts with
  | nil => intro prior; simp [extractGo]
  | cons a as ih =>
    intro prior
    simp only [extractGo]
    refine List.Pairwise.cons ?_ (ih (a.name :: prior))
    intro y hy hname
    simp only at hname
    obtain ⟨c, hc, hk⟩ := extractGo_mem o as (a.name :: prior) y hy
    rw [← hname] at hc hk
    rw [List.count_cons_self] at hc
    simp only
    rw [hk]
    exact keyWithOcc_ne _ _ _ _ _ (by omega)

/-- Determinism of key derivation: the key sequence is a function of the
identifying tuple and of the raw attachment name sequence alone. -/
theorem extractGo_keys_congr (o₁ o₂ : TestOutcome)
    (hsp : o₁.suitePath = o₂.suitePath) (hst : o₁.specTitle = o₂.specTitle)
    (hpn : o₁.projectName = o₂.projectName)
    (hai : o₁.attemptIndex = o₂.attemptIndex) :
    ∀ (as₁ as₂ : List OutcomeAttachment) (prior : List String),
      as₁.map (fun a => a.name) = as₂.map (fun a => a.name) →
      (extractGo o₁ prior as₁).map (fun x => x.key) =
        (extractGo o₂ prior as₂).map (fun x => x.key) := by
  intro as₁
  induction as₁ with
  | nil =>
    intro as₂ prior h
    cases as₂ with
    | nil => rfl
    | cons b bs => simp at h
  | cons a as ih =>
    intro as₂ prior h
    cases as₂ with
    | nil => simp at h
    | cons b bs =>
      simp only [List.map_cons, List.cons.injEq] at h
      simp only [extractGo, List.map_cons, List.cons.injEq]
      constructor
      · rw [hsp, hst, hpn, hai, h.1]
      · rw [h.1]
        exact ih bs (b.name :: prior) h.2

theorem walkAttachments_ok : ∀ (as : List RawAttachment),
    attachmentsWF as = true → ∃ os, walkAttachments as = .ok os := by
  intro as
  induction as with
  | nil => intro h; exact ⟨[], rfl⟩
  | cons a as ih =>
    intro h
    simp only [attachmentsWF, Bool.and_eq_true] at h
    obtain ⟨os, hos⟩ := ih h.2
    obtain ⟨n, hn⟩ := Option.isSome_iff_exists.mp h.1
    exact ⟨_, by simp only [walkAttachments, hn, hos]; rfl⟩

theorem walkResults_ok (suitePath : List String) (specTitle projectName : String) :
    ∀ (rs : List RawResult) (idx : Nat), resultsWF rs = true →
      ∃ os, walkResults suitePath specTitle projectName idx rs = .ok os := by
  intro rs
  induction rs with
  | nil => intro idx h; exact ⟨[], rfl⟩
  | cons r rs ih =>
    intro idx h
    simp only [resultsWF, Bool.and_eq_true] at h
    obtain ⟨atts, hatts⟩ := walkAttachments_ok r.attachments h.1
    obtain ⟨os, hos⟩ := ih (idx + 1) h.2
    exact ⟨_, by simp only [walkResults, hatts, hos]; rfl⟩

theorem walkTests_ok (suitePath : List String) (specTitle : String) :
    ∀ (ts : List RawTest), testsWF ts = true →
      ∃ os, walkTests suitePath specTitle ts = .ok os := by
  intro ts
  induction ts with
  | nil => intro h; exact ⟨[], rfl⟩
  | cons t ts ih =>
    intro h
    simp only [testsWF, Bool.and_eq_true] at h
    obtain ⟨pn, hpn⟩ := Option.isSome_iff_exists.mp h.1.1
    obtain ⟨os₁, h₁⟩ := walkResults_ok suitePath specTitle pn t.results 0 h.1.2
    obtain ⟨os₂, h₂⟩ := ih h.2
    exact ⟨_, by simp only [walkTests, hpn, h₁, h₂]; rfl⟩

theorem walkSpecs_ok (suitePath : List String) :
    ∀ (sps : List RawSpec), specsWF sps = true →
      ∃ os, walkSpecs suitePath sps = .ok os := by
  intro sps
  induction sps with
  | nil => intro h; exact ⟨[], rfl⟩
  | cons sp sps ih =>
    intro h
    simp only [specsWF, Bool.and_eq_true] at h
    obtain ⟨t, ht⟩ := Option.isSome_iff_exists.mp h.1.1
    obtain ⟨os₁, h₁⟩ := walkTests_ok suitePath t sp.tests h.1.2
    obtain ⟨os₂, h₂⟩ := ih h.2
    exact ⟨_, by simp only [walkSpecs, ht, h₁, h₂]; rfl⟩

mutual

theorem walkSuite_ok : ∀ (ancestors : List String) (s : RawSuite),
    suiteWF s = true → ∃ os, walkSuite ancestors s = .ok os
  | ancestors, .mk title specs suites, h => by
      simp only [suiteWF, Bool.and_eq_true] at h
      obtain ⟨t, ht⟩ := Option.isSome_iff_exists.mp h.1.1
      obtain ⟨os₁, h₁⟩ := walkSpecs_ok (ancestors ++ [t]) specs h.1.2
      obtain ⟨os₂, h₂⟩ := walkSuites_ok (ancestors ++ [t]) suites h.2
      exact ⟨_, by simp only [walkSuite, ht, h₁, h₂]; rfl⟩

theorem walkSuites_ok : ∀ (ancestors : List String) (ss : List RawSuite),
    suitesWF ss = true → ∃ os, walkSuites ancestors ss = .ok os
  | ancestors, [], _ => ⟨[], rfl⟩
  | ancestors, s :: ss, h => by
      simp only [suitesWF, Bool.and_eq_true] at h
      obtain ⟨os₁, h₁⟩ := walkSuite_ok ancestors s h.1
      obtain ⟨os₂, h₂⟩ := walkSuites_ok ancestors ss h.2
      exact ⟨_, by simp only [walkSuites, h₁, h₂]; rfl⟩

end

/-- A structurally well-formed report walks without error. -/
theorem walk_ok (r : RawReport) (h : reportWF r = true) :
    ∃ os, walk r = .ok os :=
  walkSuites_ok [] r.suites h

theorem walkResults_length (suitePath : List String)
    (specTitle projectName : String) :
    ∀ (rs : List RawResult) (idx : Nat) (os : List TestOutcome),
      walkResults suitePath specTitle projectName idx rs = .ok os →
      os.length = rs.length := by
  intro rs
  induction rs with
  | nil =>
    intro idx os h
    simp only [walkResults] at h
    cases h
    rfl
  | cons r rs ih =>
    intro idx os h
    simp only [walkResults] at h
    cases hA : walkAttachments r.attachments with
    | error e => rw [hA] at h; cases h
    | ok atts =>
      rw [hA] at h
      cases hR : walkResults suitePath specTitle projectName (idx + 1) rs with
      | error e => rw [hR] at h; cases h
      | ok rest =>
        rw [hR] at h
        cases h
        simp [ih (idx + 1) rest hR]

theorem walkTests_length (suitePath : List String) (specTitle : String) :
    ∀ (ts : List RawTest) (os : List TestOutcome),
      walkTests suitePath specTitle ts = .ok os →
      os.length = testsLeafCount ts := by
  intro ts
  induction ts with
  | nil =>
    intro os h
    simp only [walkTests] at h
    cases h
    rfl
  | cons t ts ih =>
    intro os h
    simp only [walkTests] at h
    split at h
    · cases h
    next pn hpn =>
      split at h
      · cases h
      next os₁ hR =>
        split at h
        · cases h
        next os₂ hT =>
          cases h
          have h₁ := walkResults_length suitePath specTitle pn t.results 0 os₁ hR
          have h₂ := ih os₂ hT
          simp [testsLeafCount, h₁, h₂]

theorem walkSpecs_length (suitePath : List String) :
    ∀ (sps : List RawSpec) (os : List TestOutcome),
      walkSpecs suitePath sps = .ok os →
      os.length = specsLeafCount sps := by
  intro sps
  induction sps with
  | nil =>
    intro os h
    simp only [walkSpecs] at h
    cases h
    rfl
  | cons sp sps ih =>
    intro os h
    simp only [walkSpecs] at h
    split at h
    · cases h
    next t ht =>
      split at h
      · cases h
      next os₁ hT =>
        split at h
        · cases h
        next os₂ hS =>
          cases h
          have h₁ := walkTests_length suitePath t sp.tests os₁ hT
          have h₂ := ih os₂ hS
          simp [specsLeafCount, h₁, h₂]

mutual

theorem walkSuite_length : ∀ (ancestors : List String) (s : RawSuite)
    (os : List TestOutcome), walkSuite ancestors s = .ok os →
    os.length = suiteLeafCount s
  | ancestors, .mk title specs suites, os, h => by
      cases title with
      | none => simp [walkSuite] at h
      | some t =>
        simp only [walkSuite] at h
        split at h
        · cases h
        next os₁ hS =>
          split at h
          · cases h
          next os₂ hU =>
            cases h
            have h₁ := walkSpecs_length (ancestors ++ [t]) specs os₁ hS
            have h₂ := walkSuites_length (ancestors ++ [t]) suites os₂ hU
            simp [suiteLeafCount, h₁, h₂]

theorem walkSuites_length : ∀ (ancestors : List String) (ss : List RawSuite)
    (os : List TestOutcome), walkSuites ancestors ss = .ok os →
    os.length = suitesLeafCount ss
  | ancestors, [], os, h => by
      simp only [walkSuites] at h
      cases h
      rfl
  | ancestors, s :: ss, os, h => by
      simp only [walkSuites] at h
      cases hA : walkSuite ancestors s with
      | error e => rw [hA] at h; cases h
      | ok os₁ =>
        rw [hA] at h
        cases hB : walkSuites ancestors ss with
        | error e => rw [hB] at h; cases h
        | ok os₂ =>
          rw [hB] at h
          cases h
          have h₁ := walkSuite_length ancestors s os₁ hA
          have h₂ := walkSuites_length ancestors ss os₂ hB
          simp [suitesLeafCount, h₁, h₂]

end

/-- The walker emits exactly one outcome per leaf (test, attempt) pair. -/
theorem walk_length (r : RawReport) (os : List TestOutcome)
    (h : walk r = .ok os) : os.length = leafCount r :=
  walkSuites_length [] r.suites os h

/-- Attempt indexes of the outcomes of one test case: consecutive, starting
at the given index. -/
theorem walkResults_attemptIndexes (suitePath : List String)
    (specTitle projectName : String) :
    ∀ (rs : List RawResult) (idx : Nat) (os : List TestOutcome),
      walkResults suitePath specTitle projectName idx rs = .ok os →
      os.map (fun o => o.attemptIndex) = List.range' idx rs.length := by
  intro rs
  induction rs with
  | nil =>
    intro idx os h
    simp only [walkResults] at h
    cases h
    rfl
  | cons r rs ih =>
    intro idx os h
    simp only [walkResults] at h
    cases hA : walkAttachments r.attachments with
    | error e => rw [hA] at h; cases h
    | ok atts =>
      rw [hA] at h
      cases hR : walkResults suitePath specTitle projectName (idx + 1) rs with
      | error e => rw [hR] at h; cases h
      | ok rest =>
        rw [hR] at h
        cases h
        simp only [List.map_cons, List.length_cons, List.range', List.cons.injEq,
          true_and]
        exact ih (idx + 1) rest hR

theorem uploadAll_snd (storeId : String) (fileSys : String → Option Bytes) :
    ∀ (atts : List Attachment) (store : KVS),
      (uploadAll storeId fileSys store atts).2 =
        atts.map (uploadRes storeId fileSys) := by
  intro atts
  induction atts with
  | nil => intro store; rfl
  | cons a as ih =>
    intro store
    simp only [uploadAll, List.map_cons]
    cases hf : fileSys a.path <;>
      simp [uploadOne, uploadRes, hf, mkLink, ih]

theorem uploadAll_fst (storeId : String) (fileSys : String → Option Bytes) :
    ∀ (atts : List Attachment) (store : KVS),
      (uploadAll storeId fileSys store atts).1 =
        store ++ atts.filterMap (fun a =>
          (fileSys a.path).map (fun c => (a.key, c, a.type))) := by
  intro atts
  induction atts with
  | nil => intro store; simp [uploadAll]
  | cons a as ih =>
    intro store
    simp only [uploadAll, List.filterMap_cons]
    cases hf : fileSys a.path with
    | none => simp [uploadOne, hf, ih]
    | some c => simp [uploadOne, hf, ih]

theorem promiseAll_ok_iff {α : Type} :
    ∀ (rs : List (Except String α)) (xs : List α),
      promiseAll rs = .ok xs ↔ rs = xs.map Except.ok := by
  intro rs
  induction rs with
  | nil =>
    intro xs
    constructor
    · intro h
      simp only [promiseAll] at h
      cases h
      rfl
    · intro h
      cases xs with
      | nil => rfl
      | cons x xs => simp at h
  | cons r rs ih =>
    intro xs
    cases r with
    | error e =>
      simp only [promiseAll]
      constructor
      · intro h; cases h
      · intro h
        cases xs with
        | nil => simp at h
        | cons x xs => simp at h
    | ok v =>
      simp only [promiseAll]
      constructor
      · intro h
        cases hp : promiseAll rs with
        | error e => rw [hp] at h; cases h
        | ok vs =>
          rw [hp] at h
          cases h
          have := (ih vs).mp hp
          simp [this]
      · intro h
        cases xs with
        | nil => simp at h
        | cons x xs =>
          simp only [List.map_cons, List.cons.injEq] at h
          obtain ⟨h₁, h₂⟩ := h
          cases h₁
          rw [(ih xs).mpr h₂]

/-- If some task rejects, the fan-in rejects. -/
theorem promiseAll_error {α : Type} :
    ∀ (rs : List (Except String α)),
      (∃ r ∈ rs, ∃ e, r = .error e) → ∃ e, promiseAll rs = .error e := by
  intro rs
  induction rs with
  | nil => intro ⟨r, hr, _⟩; simp at hr
  | cons r rs ih =>
    intro ⟨x, hx, e, he⟩
    cases r with
    | error e' => exact ⟨e', rfl⟩
    | ok v =>
      simp only [List.mem_cons] at hx
      rcases hx with hx | hx
      · subst hx; cases he
      · obtain ⟨e₂, h₂⟩ := ih ⟨x, hx, e, he⟩
        exact ⟨e₂, by simp [promiseAll, h₂]⟩

/-- Success characterisation of the upload batch: the fan-in fulfils
exactly when every file read succeeds, and then the links are the
attachments with their interpolated URLs, in order. -/
theorem upload_success (storeId : String) (fileSys : String → Option Bytes)
    (atts : List Attachment) (links : List AttachmentLink)
    (h : promiseAll (uploadAll storeId fileSys [] atts).2 = .ok links) :
    (∀ a ∈ atts, (fileSys a.path).isSome) ∧
      links = atts.map (mkLink storeId) := by
  rw [uploadAll_snd] at h
  have hmap := (promiseAll_ok_iff _ _).mp h
  clear h
  induction atts generalizing links with
  | nil =>
    cases links with
    | nil => exact ⟨by simp, rfl⟩
    | cons l ls => simp at hmap
  | cons a as ih =>
    cases links with
    | nil => simp at hmap
    | cons l ls =>
      simp only [List.map_cons, List.cons.injEq] at hmap
      obtain ⟨h₁, h₂⟩ := hmap
      obtain ⟨hall, hrest⟩ := ih ls h₂
      cases hf : fileSys a.path with
      | none => rw [uploadRes, hf] at h₁; cases h₁
      | some c =>
        rw [uploadRes, hf] at h₁
        simp only at h₁
        refine ⟨?_, ?_⟩
        · intro x hx
          simp only [List.mem_cons] at hx
          rcases hx with hx | hx
          · subst hx; simp [hf]
          · exact hall x hx
        · injection h₁ with h₁
          simp [List.map_cons, ← h₁, hrest]

/-- Failure characterisation: one missing file makes the fan-in reject. -/
theorem upload_failure (storeId : String) (fileSys : String → Option Bytes)
    (atts : List Attachment) (a : Attachment) (ha : a ∈ atts)
    (hf : fileSys a.path = none) :
    ∃ e, promiseAll (uploadAll storeId fileSys [] atts).2 = .error e := by
  rw [uploadAll_snd]
  refine promiseAll_error _ ⟨uploadRes storeId fileSys a, List.mem_map_of_mem _ ha, ?_⟩
  exact ⟨"ENOENT: no such file or directory " ++ a.path, by simp [uploadRes, hf]⟩

theorem length_filterMap_eq_countP {α β : Type} (f : α → Option β) :
    ∀ (l : List α), (l.filterMap f).length = l.countP (fun a => (f a).isSome) := by
  intro l
  induction l with
  | nil => rfl
  | cons a as ih =>
    cases hf : f a with
    | none => simp [List.filterMap_cons, List.countP_cons, hf, ih]
    | some b => simp [List.filterMap_cons, List.countP_cons, hf, ih]

theorem lookupLink_isSome_of_mem (links : List AttachmentLink) (k : String)
    (h : ∃ l ∈ links, l.key = k) : (lookupLink links k).isSome = true := by
  rw [lookupLink, List.find?_isSome]
  obtain ⟨l, hl, hk⟩ := h
  exact ⟨l, hl, by simp [hk]⟩

theorem mkRecordUrl_length (storeId k : String) :
    (mkRecordUrl storeId k).length =
      42 + storeId.length + 9 + k.length := by
  have h₁ : ("https://api.apify.com/v2/key-value-stores/" : String).length = 42 := by
    decide
  have h₂ : ("/records/" : String).length = 9 := by decide
  simp only [mkRecordUrl, string_length_append, h₁, h₂]

theorem mkRecordUrl_ne_empty (storeId k : String) : mkRecordUrl storeId k ≠ "" := by
  intro h
  have hl := congrArg String.length h
  rw [mkRecordUrl_length] at hl
  have he : ("" : String).length = 0 := rfl
  omega

theorem project1_artifacts_length (links : List AttachmentLink)
    (o : TestOutcome)
    (h : ∀ a ∈ extract o, (lookupLink links a.key).isSome = true) :
    (project1 links o).1.artifacts.length = o.rawAttachments.length := by
  simp only [project1]
  rw [length_filterMap_eq_countP]
  have hc : (extract o).countP
      (fun a => ((lookupLink links a.key).map (fun l =>
        ({ name := a.name, url := l.url, contentType := a.type } :
          ArtifactEntry))).isSome) = (extract o).countP (fun _ => true) := by
    apply List.countP_congr
    intro a ha
    have hs := h a ha
    cases hl : lookupLink links a.key with
    | none => rw [hl] at hs; cases hs
    | some l => simp [hl]
  rw [hc, List.countP_true, extract_length]

/-- Every artifact entry of a projected record carries the URL of one of
the uploaded links. -/
theorem project1_artifact_url (links : List AttachmentLink) (o : TestOutcome)
    (art : ArtifactEntry) (h : art ∈ (project1 links o).1.artifacts) :
    ∃ l ∈ links, art.url = l.url := by
  simp only [project1] at h
  rw [List.mem_filterMap] at h
  obtain ⟨a, _, ha⟩ := h
  cases hl : lookupLink links a.key with
  | none => rw [hl] at ha; cases ha
  | some l =>
    rw [hl] at ha
    simp only [Option.map] at ha
    refine ⟨l, ?_, ?_⟩
    · exact List.mem_of_find?_eq_some hl
    · cases ha; rfl

theorem project_records_artifacts (links : List AttachmentLink) :
    ∀ (os : List TestOutcome),
      (∀ o ∈ os, ∀ a ∈ extract o, (lookupLink links a.key).isSome = true) →
      ((project links os).1).map (fun rec => rec.artifacts.length) =
        os.map (fun o => o.rawAttachments.length) := by
  intro os
  induction os with
  | nil => intro h; rfl
  | cons o os ih =>
    intro h
    simp only [project, List.map_cons, List.cons.injEq]
    refine ⟨project1_artifacts_length links o (h o (by simp)), ?_⟩
    exact ih (fun o' ho' => h o' (by simp [ho']))

theorem project_record_mem_url (links : List AttachmentLink) :
    ∀ (os : List TestOutcome) (rec : TabularRecord),
      rec ∈ (project links os).1 → ∀ art ∈ rec.artifacts,
      ∃ l ∈ links, art.url = l.url := by
  intro os
  induction os with
  | nil => intro rec h; simp [project] at h
  | cons o os ih =>
    intro rec h art hart
    simp only [project, List.mem_cons] at h
    rcases h with h | h
    · subst h; exact project1_artifact_url links o art hart
    · exact ih rec h art hart

theorem collectFromOutcomes_mem :
    ∀ (os : List TestOutcome) (o : TestOutcome) (a : Attachment),
      o ∈ os → a ∈ extract o → a ∈ collectFromOutcomes os := by
  intro os
  induction os with
  | nil => intro o a h; simp at h
  | cons o' os ih =>
    intro o a ho ha
    simp only [List.mem_cons] at ho
    simp only [collectFromOutcomes, List.mem_append]
    rcases ho with ho | ho
    · subst ho; exact Or.inl ha
    · exact Or.inr (ih o a ho ha)

theorem collect_ok_inv (r : RawReport) (atts : List Attachment)
    (h : collectAttachmentPaths r = .ok atts) :
    ∃ os, walk r = .ok os ∧ atts = collectFromOutcomes os := by
  unfold collectAttachmentPaths at h
  cases hw : walk r with
  | error e => rw [hw] at h; cases h
  | ok os =>
    rw [hw] at h
    cases h
    exact ⟨os, rfl, rfl⟩

theorem promiseAll_all_ok (storeId : String) (fileSys : String → Option Bytes)
    (atts : List Attachment) (h : ∀ a ∈ atts, (fileSys a.path).isSome) :
    promiseAll (uploadAll storeId fileSys [] atts).2 =
      .ok (atts.map (mkLink storeId)) := by
  rw [uploadAll_snd]
  apply (promiseAll_ok_iff _ _).mpr
  rw [List.map_map]
  apply List.map_congr_left
  intro a ha
  obtain ⟨c, hc⟩ := Option.isSome_iff_exists.mp (h a ha)
  simp [uploadRes, hc, Function.comp]

/-- Evaluation of the processing block on the all-success path. -/
theorem processTestResults_ok_eval (storeId : String)
    (fileSys : String → Option Bytes) (r : RawReport) (os : List TestOutcome)
    (links : List AttachmentLink) (hw : walk r = .ok os)
    (hp : promiseAll (uploadAll storeId fileSys [] (collectFromOutcomes os)).2 =
      .ok links) :
    processTestResults storeId fileSys r =
      { store := (uploadAll storeId fileSys [] (collectFromOutcomes os)).1,
        pushed := some (project links os).1,
        warnings := some (project links os).2,
        loggedError := none } := by
  unfold processTestResults
  have hc : collectAttachmentPaths r = .ok (collectFromOutcomes os) := by
    unfold collectAttachmentPaths
    rw [hw]
  rw [hc]
  simp only [hp]
  unfold transformToTabular
  rw [hw]

/-- Evaluation of the processing block when some upload task rejects. -/
theorem processTestResults_err_eval (storeId : String)
    (fileSys : String → Option Bytes) (r : RawReport)
    (atts : List Attachment) (e : String)
    (hc : collectAttachmentPaths r = .ok atts)
    (hp : promiseAll (uploadAll storeId fileSys [] atts).2 = .error e) :
    processTestResults storeId fileSys r =
      { store := (uploadAll storeId fileSys [] atts).1,
        pushed := none, warnings := none, loggedError := some e } := by
  unfold processTestResults
  rw [hc]
  simp only [hp]

/-- Inversion of the processing block: records are pushed only on the
all-success path. -/
theorem processTestResults_pushed_inv (storeId : String)
    (fileSys : String → Option Bytes) (r : RawReport)
    (recs : List TabularRecord)
    (h : (processTestResults storeId fileSys r).pushed = some recs) :
    ∃ os links, walk r = .ok os ∧
      promiseAll (uploadAll storeId fileSys [] (collectFromOutcomes os)).2 =
        .ok links ∧
      (∀ a ∈ collectFromOutcomes os, (fileSys a.path).isSome) ∧
      links = (collectFromOutcomes os).map (mkLink storeId) ∧
      recs = (project links os).1 := by
  unfold processTestResults at h
  cases hc : collectAttachmentPaths r with
  | error e => rw [hc] at h; cases h
  | ok atts =>
    rw [hc] at h
    obtain ⟨os, hw, hatts⟩ := collect_ok_inv r atts hc
    cases hp : promiseAll (uploadAll storeId fileSys [] atts).2 with
    | error e => simp [hp] at h
    | ok links =>
      simp only [hp] at h
      obtain ⟨hall, hlinks⟩ := upload_success storeId fileSys atts links hp
      subst hatts
      refine ⟨os, links, hw, hp, hall, hlinks, ?_⟩
      have ht : transformToTabular r links = project links os := by
        unfold transformToTabular
        rw [hw]
      rw [ht] at h
      simp only [Option.some.injEq] at h
      exact h.symm

theorem countP_bool_split {α : Type} (p : α → Bool) :
    ∀ (l : List α), l.countP p + l.countP (fun a => !p a) = l.length := by
  intro l
  induction l with
  | nil => rfl
  | cons a as ih =>
    cases hp : p a <;>
      simp [List.countP_cons, hp, ← ih] <;> omega

/-- C5: `ArtifactKey` derivation is deterministic — the key sequence is a
function of `(suitePath, specTitle, projectName, attemptIndex)` and the
attachment name sequence alone — and disambiguating: any two attachments
of one outcome sharing a name receive distinct keys (the later occurrence
carrying an increasing suffix). -/
theorem claim_C5_key_determinism_disambiguation :
    (∀ (o₁ o₂ : TestOutcome), o₁.suitePath = o₂.suitePath →
      o₁.specTitle = o₂.specTitle → o₁.projectName = o₂.projectName →
      o₁.attemptIndex = o₂.attemptIndex →
      o₁.rawAttachments.map (fun a => a.name) =
        o₂.rawAttachments.map (fun a => a.name) →
      (extract o₁).map (fun x => x.key) = (extract o₂).map (fun x => x.key)) ∧
    (∀ o : TestOutcome, List.Pairwise
      (fun x y : Attachment => x.name = y.name → x.key ≠ y.key) (extract o)) :=
  ⟨fun o₁ o₂ h₁ h₂ h₃ h₄ h₅ =>
      extractGo_keys_congr o₁ o₂ h₁ h₂ h₃ h₄ _ _ [] h₅,
   fun o => extractGo_pairwise o o.rawAttachments []⟩

/-- C6: the walker emits exactly one outcome per leaf (test, attempt) pair
of the report tree, and the outcomes of one test case carry attempt
indexes 0, 1, ... in retry order. -/
theorem claim_C6_walker_leaf_count :
    (∀ (r : RawReport) (os : List TestOutcome), walk r = .ok os →
      os.length = leafCount r) ∧
    (∀ (suitePath : List String) (specTitle projectName : String)
       (rs : List RawResult) (os : List TestOutcome),
       walkResults suitePath specTitle projectName 0 rs = .ok os →
       os.map (fun o => o.attemptIndex) = List.range rs.length) :=
  ⟨walk_length,
   fun suitePath specTitle projectName rs os h => by
     rw [List.range_eq_range']
     exact walkResults_attemptIndexes suitePath specTitle projectName rs 0 os h⟩

/-- C7: a structurally well-formed report walks without error, and a
malformed report makes the processing block abort before any upload: the
store stays empty and nothing is pushed. -/
theorem claim_C7_malformed_fail_fast :
    (∀ r : RawReport, reportWF r = true → ∃ os, walk r = .ok os) ∧
    (∀ (storeId : String) (fileSys : String → Option Bytes) (r : RawReport)
       (e : MalformedReportError), walk r = .error e →
       processTestResults storeId fileSys r =
         { store := [], pushed := none, warnings := none,
           loggedError := some (mErrMsg e) }) := by
  refine ⟨walk_ok, ?_⟩
  intro storeId fileSys r e h
  unfold processTestResults
  have hc : collectAttachmentPaths r = .error e := by
    unfold collectAttachmentPaths
    rw [h]
  rw [hc]

/-- C8: content-type inference is total and never fails: a present
`contentType` wins; otherwise the extension decides via the fixed table
png, webm, zip, json; any other name degrades to the octet-stream
default. -/
theorem claim_C8_content_type_inference :
    (∀ (n c : String), inferContentType (some c) n = c) ∧
    (∀ n : String, strEndsWith n ".png" = true →
      inferContentType none n = "image/png") ∧
    (∀ n : String, strEndsWith n ".webm" = true →
      inferContentType none n = "video/webm") ∧
    (∀ n : String, strEndsWith n ".zip" = true →
      inferContentType none n = "application/zip") ∧
    (∀ n : String, strEndsWith n ".json" = true →
      inferContentType none n = "application/json") ∧
    (∀ n : String, strEndsWith n ".png" = false →
      strEndsWith n ".webm" = false → strEndsWith n ".zip" = false →
      strEndsWith n ".json" = false →
      inferContentType none n = "application/octet-stream") := by
  refine ⟨fun n c => rfl, ?_, ?_, ?_, ?_, ?_⟩
  · intro n h
    simp [inferContentType, mimeTable, List.find?, h]
  · intro n h
    have hp : strEndsWith n ".png" = false := by
      cases hpp : strEndsWith n ".png"
      · rfl
      · exact (endsWith_excl hpp h (by decide) (by decide) (by decide)).elim
    simp [inferContentType, mimeTable, List.find?, h, hp]
  · intro n h
    have hp : strEndsWith n ".png" = false := by
      cases hpp : strEndsWith n ".png"
      · rfl
      · exact (endsWith_excl hpp h (by decide) (by decide) (by decide)).elim
    have hw : strEndsWith n ".webm" = false := by
      cases hww : strEndsWith n ".webm"
      · rfl
      · exact (endsWith_excl hww h (by decide) (by decide) (by decide)).elim
    simp [inferContentType, mimeTable, List.find?, h, hp, hw]
  · intro n h
    have hp : strEndsWith n ".png" = false := by
      cases hpp : strEndsWith n ".png"
      · rfl
      · exact (endsWith_excl hpp h (by decide) (by decide) (by decide)).elim
    have hw : strEndsWith n ".webm" = false := by
      cases hww : strEndsWith n ".webm"
      · rfl
      · exact (endsWith_excl hww h (by decide) (by decide) (by decide)).elim
    have hz : strEndsWith n ".zip" = false := by
      cases hzz : strEndsWith n ".zip"
      · rfl
      · exact (endsWith_excl hzz h (by decide) (by decide) (by decide)).elim
    simp [inferContentType, mimeTable, List.find?, h, hp, hw, hz]
  · intro n h₁ h₂ h₃ h₄
    simp [inferContentType, mimeTable, List.find?, h₁, h₂, h₃, h₄]

/-- C10: the link emitted for an uploaded attachment carries exactly the
store URL of its own key — the string
`https://api.apify.com/v2/key-value-stores/` followed by the store id,
`/records/`, and the very key the bytes were stored under. -/
theorem claim_C10_url_matches_stored_key :
    (∀ (storeId : String) (fileSys : String → Option Bytes) (store : KVS)
       (a : Attachment) (st : KVS) (l : AttachmentLink),
       uploadOne storeId fileSys store a = (st, .ok l) →
       l.key = a.key ∧
       l.url = "https://api.apify.com/v2/key-value-stores/" ++ storeId
         ++ "/records/" ++ l.key ∧
       ∃ c, fileSys a.path = some c ∧ st = store ++ [(l.key, c, l.type)]) ∧
    (∀ (storeId : String) (fileSys : String → Option Bytes)
       (atts : List Attachment) (links : List AttachmentLink),
       promiseAll (uploadAll storeId fileSys [] atts).2 = .ok links →
       ∀ l ∈ links, l.url = "https://api.apify.com/v2/key-value-stores/"
         ++ storeId ++ "/records/" ++ l.key) := by
  constructor
  · intro storeId fileSys store a st l h
    simp only [uploadOne] at h
    cases hf : fileSys a.path with
    | none =>
      simp only [hf] at h
      have hsnd := congrArg Prod.snd h
      simp at hsnd
    | some c =>
      simp only [hf] at h
      have hfst := congrArg Prod.fst h
      have hsnd := congrArg Prod.snd h
      simp only at hfst hsnd
      rw [Except.ok.injEq] at hsnd
      subst hsnd
      exact ⟨rfl, rfl, c, rfl, hfst.symm⟩
  · intro storeId fileSys atts links h l hl
    obtain ⟨-, hlinks⟩ := upload_success storeId fileSys atts links h
    subst hlinks
    rw [List.mem_map] at hl
    obtain ⟨a, -, rfl⟩ := hl
    rfl

/-- C3: every artifact of an emitted record has a non-empty URL, and when
every upload of a walked report succeeds, each projected record carries
exactly one artifact entry per raw attachment, each with a non-empty
URL. -/
theorem claim_C3_nonempty_urls_roundtrip :
    (∀ (storeId : String) (fileSys : String → Option Bytes) (r : RawReport)
       (recs : List TabularRecord),
       (processTestResults storeId fileSys r).pushed = some recs →
       ∀ rec ∈ recs, ∀ art ∈ rec.artifacts, art.url ≠ "") ∧
    (∀ (storeId : String) (fileSys : String → Option Bytes) (r : RawReport)
       (os : List TestOutcome), walk r = .ok os →
       (∀ a ∈ collectFromOutcomes os, (fileSys a.path).isSome) →
       ∃ recs, (processTestResults storeId fileSys r).pushed = some recs ∧
         recs.map (fun rec => rec.artifacts.length) =
           os.map (fun o => o.rawAttachments.length)) := by
  constructor
  · intro storeId fileSys r recs h rec hrec art hart
    obtain ⟨os, links, hw, hp, hall, hlinks, hrecs⟩ :=
      processTestResults_pushed_inv storeId fileSys r recs h
    subst hrecs
    obtain ⟨l, hl, hurl⟩ := project_record_mem_url links os rec hrec art hart
    rw [hlinks] at hl
    rw [List.mem_map] at hl
    obtain ⟨a, -, rfl⟩ := hl
    rw [hurl]
    exact mkRecordUrl_ne_empty storeId a.key
  · intro storeId fileSys r os hw hall
    have hp := promiseAll_all_ok storeId fileSys (collectFromOutcomes os) hall
    refine ⟨(project ((collectFromOutcomes os).map (mkLink storeId)) os).1, ?_, ?_⟩
    · rw [processTestResults_ok_eval storeId fileSys r os
        ((collectFromOutcomes os).map (mkLink storeId)) hw hp]
    · apply project_records_artifacts
      intro o ho a ha
      apply lookupLink_isSome_of_mem
      refine ⟨mkLink storeId a, ?_, rfl⟩
      exact List.mem_map_of_mem _ (collectFromOutcomes_mem os o a ho ha)

/-- C4: the projector runs only behind the fan-in barrier — records are
pushed only when every upload task of the batch has succeeded, and the
join then sees a link per derived key, keyed identically. -/
theorem claim_C4_fan_in_barrier :
    ∀ (storeId : String) (fileSys : String → Option Bytes) (r : RawReport)
      (recs : List TabularRecord),
      (processTestResults storeId fileSys r).pushed = some recs →
      ∃ os, walk r = .ok os ∧
        (∀ a ∈ collectFromOutcomes os, (fileSys a.path).isSome) ∧
        recs = (project ((collectFromOutcomes os).map (mkLink storeId)) os).1 ∧
        ((collectFromOutcomes os).map (mkLink storeId)).map (fun l => l.key) =
          (collectFromOutcomes os).map (fun a => a.key) := by
  intro storeId fileSys r recs h
  obtain ⟨os, links, hw, hp, hall, hlinks, hrecs⟩ :=
    processTestResults_pushed_inv storeId fileSys r recs h
  subst hlinks
  refine ⟨os, hw, hall, hrecs, ?_⟩
  rw [List.map_map]
  rfl

/-- C1 counterexample input evaluation: with both files readable the
record with both artifacts is pushed; making a single file unreadable
erases the sibling's result from the output entirely — nothing is pushed,
no per-key failure list exists (`warnings` is `none`), and only one
untagged message is logged. -/
theorem claim_C1_counterexample :
    (processTestResults "store1" fsBoth sampleReport).pushed.isSome = true ∧
    fsMiss "test-results/s2.png" = some [2, 2] ∧
    (processTestResults "store1" fsMiss sampleReport).pushed = none ∧
    (processTestResults "store1" fsMiss sampleReport).warnings = none ∧
    (processTestResults "store1" fsMiss sampleReport).loggedError =
      some "ENOENT: no such file or directory test-results/s1.png" := by
  exact ⟨rfl, rfl, rfl, rfl, rfl⟩

/-- C1 (amended): a single failing upload rejects the whole
`Promise.all`; the catch block logs the untagged error and no records and
no failure list reach the caller, although the sibling uploads' store
writes still land. -/
theorem claim_C1_upload_failure_amended :
    ∀ (storeId : String) (fileSys : String → Option Bytes) (r : RawReport)
      (atts : List Attachment) (a : Attachment),
      collectAttachmentPaths r = .ok atts → a ∈ atts →
      fileSys a.path = none →
      (processTestResults storeId fileSys r).pushed = none ∧
      (processTestResults storeId fileSys r).warnings = none ∧
      ((processTestResults storeId fileSys r).loggedError).isSome = true ∧
      (∀ b ∈ atts, ∀ c, fileSys b.path = some c →
        (b.key, c, b.type) ∈ (processTestResults storeId fileSys r).store) := by
  intro storeId fileSys r atts a hc ha hf
  obtain ⟨e, he⟩ := upload_failure storeId fileSys atts a ha hf
  rw [processTestResults_err_eval storeId fileSys r atts e hc he]
  refine ⟨rfl, rfl, rfl, ?_⟩
  intro b hb c hcb
  simp only
  rw [uploadAll_fst]
  rw [List.nil_append, List.mem_filterMap]
  exact ⟨b, hb, by rw [hcb]; rfl⟩

/-- C2 counterexample input evaluation: exactly one of the two uploads of
the sample report fails under `fsMiss`, yet no record with one artifact
and no singleton warning list is produced — the pipeline pushes nothing at
all. -/
theorem claim_C2_counterexample :
    (collectAttachmentPaths sampleReport).map (fun atts => atts.length) =
      .ok 2 ∧
    (collectAttachmentPaths sampleReport).map (fun atts =>
      atts.countP (fun a => (fsMiss a.path).isNone)) = .ok 1 ∧
    (processTestResults "store1" fsMiss sampleReport).pushed = none ∧
    (processTestResults "store1" fsMiss sampleReport).warnings = none := by
  exact ⟨rfl, rfl, rfl, rfl⟩

/-- C2 (amended): the spec-modelled projector does implement the
missing-key policy — given links missing exactly one of an outcome's
derived keys, the record is still emitted with that attachment omitted
(one fewer artifact entry) and the warning list is exactly the missing
key; in the pipeline, however, a failed upload prevents any record from
being pushed at all, so the N−1 scenario never materialises there. -/
theorem claim_C2_missing_key_policy_amended :
    (∀ (links : List AttachmentLink) (o : TestOutcome) (k : String),
      (extract o).countP (fun a => !(lookupLink links a.key).isSome) = 1 →
      (∀ a ∈ extract o, (lookupLink links a.key).isSome = false → a.key = k) →
      (project1 links o).1.artifacts.length + 1 = o.rawAttachments.length ∧
      (project1 links o).2 = [{ key := k }]) ∧
    (∀ (storeId : String) (fileSys : String → Option Bytes) (r : RawReport)
       (atts : List Attachment) (a : Attachment),
       collectAttachmentPaths r = .ok atts → a ∈ atts →
       fileSys a.path = none →
       (processTestResults storeId fileSys r).pushed = none) := by
  constructor
  · intro links o k h1 h2
    have hart : (project1 links o).1.artifacts.length =
        (extract o).countP (fun a => (lookupLink links a.key).isSome) := by
      simp only [project1]
      rw [length_filterMap_eq_countP]
      apply List.countP_congr
      intro a ha
      cases hl : lookupLink links a.key <;> simp [hl]
    have hwarn : (project1 links o).2.length =
        (extract o).countP (fun a => !(lookupLink links a.key).isSome) := by
      simp only [project1]
      rw [length_filterMap_eq_countP]
      apply List.countP_congr
      intro a ha
      cases hl : lookupLink links a.key <;> simp [hl]
    have hsplit := countP_bool_split
      (fun a : Attachment => (lookupLink links a.key).isSome) (extract o)
    constructor
    · rw [hart, ← extract_length o]
      omega
    · have hlen : (project1 links o).2.length = 1 := by rw [hwarn, h1]
      obtain ⟨w, hw⟩ := List.length_eq_one.mp hlen
      have hwmem : w ∈ (project1 links o).2 := by rw [hw]; simp
      simp only [project1, List.mem_filterMap] at hwmem
      obtain ⟨a, ha, hfa⟩ := hwmem
      cases hl : (lookupLink links a.key).isSome with
      | true => rw [if_pos hl] at hfa; cases hfa
      | false =>
        rw [if_neg (by rw [hl]; exact Bool.false_ne_true)] at hfa
        have hk := h2 a ha hl
        rw [hw]
        cases hfa
        rw [hk]
  · intro storeId fileSys r atts a hc ha hf
    obtain ⟨e, he⟩ := upload_failure storeId fileSys atts a ha hf
    rw [processTestResults_err_eval storeId fileSys r atts e hc he]

theorem uploadScreenshots_global (w : WorldOracle) (s : OrchestratorState) :
    (uploadScreenshots w s).testResultsGlobal = s.testResultsGlobal := rfl

theorem uploadScreenshots_items (w : WorldOracle) (s : OrchestratorState) :
    (uploadScreenshots w s).datasetItems = s.datasetItems := rfl

theorem uploadReportHtml_global (w : WorldOracle) (s : OrchestratorState) :
    (uploadReportHtml w s).testResultsGlobal = s.testResultsGlobal := by
  unfold uploadReportHtml
  cases w.reportHtml <;> rfl

theorem uploadReportHtml_items (w : WorldOracle) (s : OrchestratorState) :
    (uploadReportHtml w s).datasetItems = s.datasetItems := by
  unfold uploadReportHtml
  cases w.reportHtml <;> rfl

theorem uploadVideos_global (w : WorldOracle) (s : OrchestratorState) :
    (uploadVideos w s).testResultsGlobal = s.testResultsGlobal := rfl

theorem uploadVideos_items (w : WorldOracle) (s : OrchestratorState) :
    (uploadVideos w s).datasetItems = s.datasetItems := rfl

theorem storageSection_global (w : WorldOracle) (s : OrchestratorState) :
    (storageSection w s).testResultsGlobal = s.testResultsGlobal := by
  unfold storageSection
  cases hr : w.reportJson with
  | none =>
    simp only [uploadVideos_global, uploadReportHtml_global,
      uploadScreenshots_global]
  | some r =>
    cases hp : (processTestResults w.storeId w.fileBytes r).pushed <;>
      simp only [hp] <;>
      simp only [uploadVideos_global, uploadReportHtml_global,
        uploadScreenshots_global]

theorem storageSection_items (w : WorldOracle) (s : OrchestratorState) :
    ∀ item ∈ (storageSection w s).datasetItems,
      item ∈ s.datasetItems ∨ ∃ recs, item = DatasetItem.tabular recs := by
  unfold storageSection
  cases hr : w.reportJson with
  | none =>
    intro item h
    rw [uploadVideos_items, uploadReportHtml_items, uploadScreenshots_items] at h
    exact Or.inl h
  | some r =>
    cases hp : (processTestResults w.storeId w.fileBytes r).pushed with
    | none =>
      intro item h
      simp only [hp] at h
      simp only [uploadVideos_items, uploadReportHtml_items,
        uploadScreenshots_items] at h
      exact Or.inl h
    | some recs =>
      intro item h
      simp only [hp] at h
      simp only [uploadVideos_items, uploadReportHtml_items,
        uploadScreenshots_items, List.mem_append, List.mem_singleton] at h
      rcases h with h | h
      · exact Or.inl h
      · exact Or.inr ⟨recs, h⟩

/-- C9: in the orchestrating process, `global.__TEST_RESULTS__` is never
assigned — the only assignment lives in the generated script text and runs
in the `execSync` child process — so the post-run guard always sees
`undefined` and the guarded per-patient dataset push never executes. -/
theorem claim_C9_patient_push_dead :
    ∀ (input : ActorInput) (w : WorldOracle),
      (mainFlow input w).testResultsGlobal = none ∧
      ∀ item ∈ (mainFlow input w).datasetItems,
        ∀ res : TestResultsGlobal, item ≠ DatasetItem.patient res := by
  intro input w
  unfold mainFlow
  cases hrun : w.childRunOk with
  | false =>
    simp only [runTests, hrun, if_pos rfl]
    exact ⟨rfl, by intro item h; simp [storeTestCode, updateConfigStep,
      initialState] at h⟩
  | true =>
    simp only [runTests, hrun, Bool.true_eq_false, if_false]
    constructor
    · rw [storageSection_global]
      rfl
    · intro item h res
      have hsi := storageSection_items w _ item h
      rcases hsi with hmem | ⟨recs, hrec⟩
      · simp [storeTestCode, updateConfigStep, initialState] at hmem
      · rw [hrec]
        intro hcontra
        cases hcontra

/-- C5 witness: derivation at the spec §8 scenario — identical tuple and
name sequence give identical key sequences, and the two same-named
attachments carry distinct keys. -/
theorem claim_C5_witness :
    (extract sampleOutcome).map (fun x => x.key) =
      (extract sampleOutcomeAlt).map (fun x => x.key) ∧
    stagedA.key ≠ stagedB.key := by
  constructor
  · exact (claim_C5_key_determinism_disambiguation).1 sampleOutcome
      sampleOutcomeAlt rfl rfl rfl rfl rfl
  · have h := (claim_C5_key_determinism_disambiguation).2 sampleOutcome
    have hx : extract sampleOutcome = [stagedA, stagedB] := rfl
    rw [hx, List.pairwise_cons] at h
    exact h.1 stagedB (by simp) rfl

/-- C6 witness: the retried report yields two outcomes — one per leaf
(test, attempt) pair — with attempt indexes 0 and 1. -/
theorem claim_C6_witness :
    retryOutcomes.length = leafCount retryReport ∧
    retryOutcomes.map (fun o => o.attemptIndex) = List.range 2 := by
  constructor
  · exact (claim_C6_walker_leaf_count).1 retryReport retryOutcomes rfl
  · exact (claim_C6_walker_leaf_count).2 ["Login"] "finds patient" "chromium"
      retryResults retryOutcomes rfl

/-- C7 witness: the well-formed sample report walks, and the suite without
a title aborts the processing block with an empty store. -/
theorem claim_C7_witness :
    exceptIsOk (walk sampleReport) = true ∧
    processTestResults "store1" fsBoth badReport =
      { store := [], pushed := none, warnings := none,
        loggedError := some (mErrMsg (.missingField "suite.title")) } := by
  constructor
  · obtain ⟨os, hos⟩ := (claim_C7_malformed_fail_fast).1 sampleReport (by decide)
    rw [hos]
    rfl
  · exact (claim_C7_malformed_fail_fast).2 "store1" fsBoth badReport
      (.missingField "suite.title") rfl

/-- C8 witness: the content-type policy at concrete attachment names. -/
theorem claim_C8_witness :
    inferContentType (some "text/plain") "trace.zip" = "text/plain" ∧
    inferContentType none "screenshot.png" = "image/png" ∧
    inferContentType none "video.webm" = "video/webm" ∧
    inferContentType none "trace.zip" = "application/zip" ∧
    inferContentType none "report.json" = "application/json" ∧
    inferContentType none "notes.txt" = "application/octet-stream" :=
  ⟨(claim_C8_content_type_inference).1 "trace.zip" "text/plain",
   (claim_C8_content_type_inference).2.1 "screenshot.png" (by decide),
   (claim_C8_content_type_inference).2.2.1 "video.webm" (by decide),
   (claim_C8_content_type_inference).2.2.2.1 "trace.zip" (by decide),
   (claim_C8_content_type_inference).2.2.2.2.1 "report.json" (by decide),
   (claim_C8_content_type_inference).2.2.2.2.2 "notes.txt" (by decide)
     (by decide) (by decide) (by decide)⟩

/-- C10 witness: the link of the first sample attachment resolves to the
blob stored under its own key. -/
theorem claim_C10_witness :
    (mkLink "store1" stagedA).key = stagedA.key ∧
    (mkLink "store1" stagedA).url =
      "https://api.apify.com/v2/key-value-stores/" ++ "store1"
        ++ "/records/" ++ (mkLink "store1" stagedA).key := by
  have h := (claim_C10_url_matches_stored_key).1 "store1" fsBoth []
    stagedA [(stagedA.key, [1, 1], stagedA.type)] (mkLink "store1" stagedA) rfl
  exact ⟨h.1, h.2.1⟩

/-- C3 witness: the all-success sample run pushes the record with two
artifact entries, each with a non-empty URL. -/
theorem claim_C3_witness :
    (processTestResults "store1" fsBoth sampleReport).pushed =
      some [sampleRecord] ∧
    sampleRecord.artifacts.length = 2 ∧
    (∀ art ∈ sampleRecord.artifacts, art.url ≠ "") ∧
    ((processTestResults "store1" fsBoth sampleReport).pushed).isSome = true := by
  refine ⟨rfl, rfl, ?_, ?_⟩
  · intro art hart
    exact (claim_C3_nonempty_urls_roundtrip).1 "store1" fsBoth sampleReport
      [sampleRecord] rfl sampleRecord (by simp) art hart
  · obtain ⟨recs, hrecs, -⟩ := (claim_C3_nonempty_urls_roundtrip).2 "store1"
      fsBoth sampleReport [sampleOutcome] rfl (by decide)
    rw [hrecs]
    rfl

/-- C4 witness: the pushed sample records come from the complete,
identically-keyed link map. -/
theorem claim_C4_witness :
    (processTestResults "store1" fsBoth sampleReport).pushed =
      some [sampleRecord] ∧
    ((collectFromOutcomes [sampleOutcome]).map (mkLink "store1")).map
        (fun l => l.key) =
      (collectFromOutcomes [sampleOutcome]).map (fun a => a.key) := by
  refine ⟨rfl, ?_⟩
  obtain ⟨os, hw, hall, hrecs, hkeys⟩ := claim_C4_fan_in_barrier "store1"
    fsBoth sampleReport [sampleRecord] rfl
  have h2 : Except.ok (ε := MalformedReportError) os =
      .ok [sampleOutcome] := by
    rw [← hw]
    rfl
  rw [Except.ok.injEq] at h2
  subst h2
  exact hkeys

/-- C1 witness (amended behaviour): on the sample run with one unreadable
file nothing is pushed, one error is logged, and the sibling's bytes are
nonetheless in the store. -/
theorem claim_C1_witness :
    (processTestResults "store1" fsMiss sampleReport).pushed = none ∧
    ((processTestResults "store1" fsMiss sampleReport).loggedError).isSome
      = true ∧
    (stagedB.key, [2, 2], stagedB.type) ∈
      (processTestResults "store1" fsMiss sampleReport).store := by
  obtain ⟨h1, h2, h3, h4⟩ := claim_C1_upload_failure_amended "store1" fsMiss
    sampleReport [stagedA, stagedB] stagedA rfl (by simp) rfl
  exact ⟨h1, h3, h4 stagedB (by simp) [2, 2] rfl⟩

/-- C2 witness (amended behaviour): the modelled projector omits the
missing-key attachment and warns about exactly that key, while the
pipeline pushes nothing when an upload fails. -/
theorem claim_C2_witness :
    (project1 [mkLink "store1" stagedB] sampleOutcome).1.artifacts.length + 1
      = sampleOutcome.rawAttachments.length ∧
    (project1 [mkLink "store1" stagedB] sampleOutcome).2 =
      [{ key := stagedA.key }] ∧
    (processTestResults "store1" fsMiss sampleReport).pushed = none := by
  have h := (claim_C2_missing_key_policy_amended).1 [mkLink "store1" stagedB]
    sampleOutcome stagedA.key (by decide) (by decide)
  exact ⟨h.1, h.2, (claim_C2_missing_key_policy_amended).2 "store1" fsMiss
    sampleReport [stagedA, stagedB] stagedA rfl (by simp) rfl⟩

/-- C9 witness: on a concrete successful run the guard still sees
`undefined` and the dataset item pushed by the evidence pipeline is not a
patient payload. -/
theorem claim_C9_witness :
    (mainFlow sampleInput sampleWorld).testResultsGlobal = none ∧
    DatasetItem.tabular [sampleRecord] ≠ DatasetItem.patient
      { patientName := "p", medications := "m", nextAppointment := none,
        requestId := "r", calculatedAt := "c", message := "msg" } := by
  refine ⟨(claim_C9_patient_push_dead sampleInput sampleWorld).1, ?_⟩
  have hitems : (mainFlow sampleInput sampleWorld).datasetItems =
      [DatasetItem.tabular [sampleRecord]] := rfl
  exact (claim_C9_patient_push_dead sampleInput sampleWorld).2
    (DatasetItem.tabular [sampleRecord]) (by rw [hitems]; simp)
    { patientName := "p", medications := "m", nextAppointment := none,
      requestId := "r", calculatedAt := "c", message := "msg" }

end PlaywrightActorz

